import Mathlib

/-!
Verification of the database lifecycle manager of the geoip-api service
(`main.go`).  The Go functions `updateDatabasesIfNeeded`, `initDatabases`,
`downloadDatabase` and the per-entry `sync.RWMutex` discipline used by
`getIPInfo` are embedded as executable Lean functions over explicit state,
with the outside world (filesystem, network, geoip2 open) supplied as
oracles.  Machine effects are made visible through an event trace so that
lock-scope and download-count properties can be stated.
-/

namespace GeoipApi

/-- A geoip2 reader handle.  `id` identifies the underlying object (the Go
pointer identity); `closed` records whether `Close()` has been called on it.
A lookup through a closed handle fails. -/
structure RHandle where
  id : Nat
  closed : Bool
deriving DecidableEq, Repr

/-- Mark a handle closed: the effect of `reader.Close()` on the object. -/
def closeRH (r : RHandle) : RHandle :=
  { r with closed := true }

/-- Embeds the Go struct `dbConfig` (main.go): the swappable reader, the
remote `url`, the `localPath` on disk, and the `lastUpdate` timestamp
(Go `time.Time`, modelled as nanoseconds since the zero time; the zero
value is `0`).  The `sync.RWMutex` is modelled separately in the
interleaving semantics below. -/
structure DbConfig where
  reader : Option RHandle
  url : String
  localPath : String
  lastUpdate : Nat
deriving DecidableEq, Repr

/-- `30 * 24 * time.Hour` in nanoseconds (main.go line 340). -/
def thirtyDays : Nat := 30 * 24 * 60 * 60 * 1000000000

/-- Whether a lookup against the entry succeeds: the entry must hold a
reader and that reader must not have been closed. -/
def lookupOK (db : DbConfig) : Bool :=
  match db.reader with
  | some r => !r.closed
  | none => false

/-- Observable actions performed by the refresh path, in program order. -/
inductive Act where
  | download (url dest : String)
  | lockAcquire
  | closeReader
  | renameFile (src dst : String)
  | openReader (path : String)
  | writeReaderPtr
  | writeTimestamp
  | lockRelease
deriving DecidableEq, Repr

/-- Oracles for one refresh cycle: outcome of `downloadDatabase`, of
`os.Rename`, of opening a reader at a path (`some id` = fresh handle,
`none` = failure), and the current wall-clock time `now`. -/
structure RefreshEnv where
  downloadOK : String → String → Bool
  renameOK : String → String → Bool
  openResult : String → Option Nat
  now : Nat

/-- The body of the `for name, db := range databases` loop of
`updateDatabasesIfNeeded` (main.go lines 338-382), for one entry.
Returns the entry state afterwards and the trace of actions performed.
Control flow is copied from the source: staleness check; download to
`localPath + ".new"` (on failure, `continue` with the entry untouched);
`mutex.Lock()`; close the existing reader if non-nil; `os.Rename`
(on failure, best-effort reopen of `localPath` — the source calls
`geoip2.Open` directly there — then unlock and `continue`); open the
renamed file (on failure, unlock and `continue`); install the new reader
and set `lastUpdate = time.Now()`; unlock. -/
def updateEntry (env : RefreshEnv) (db : DbConfig) : DbConfig × List Act :=
  if env.now - db.lastUpdate ≥ thirtyDays then
    let tempPath := db.localPath ++ ".new"
    if env.downloadOK db.url tempPath then
      let closeEvts : List Act := if db.reader.isSome then [Act.closeReader] else []
      let db1 : DbConfig := { db with reader := db.reader.map closeRH }
      if env.renameOK tempPath db.localPath then
        match env.openResult db.localPath with
        | some rid =>
            ({ db1 with reader := some ⟨rid, false⟩, lastUpdate := env.now },
             Act.download db.url tempPath :: Act.lockAcquire :: closeEvts ++
               [Act.renameFile tempPath db.localPath, Act.openReader db.localPath,
                Act.writeReaderPtr, Act.writeTimestamp, Act.lockRelease])
        | none =>
            (db1,
             Act.download db.url tempPath :: Act.lockAcquire :: closeEvts ++
               [Act.renameFile tempPath db.localPath, Act.openReader db.localPath,
                Act.lockRelease])
      else
        match env.openResult db.localPath with
        | some rid =>
            ({ db1 with reader := some ⟨rid, false⟩ },
             Act.download db.url tempPath :: Act.lockAcquire :: closeEvts ++
               [Act.renameFile tempPath db.localPath, Act.openReader db.localPath,
                Act.lockRelease])
        | none =>
            (db1,
             Act.download db.url tempPath :: Act.lockAcquire :: closeEvts ++
               [Act.renameFile tempPath db.localPath, Act.openReader db.localPath,
                Act.lockRelease])
    else
      (db, [Act.download db.url tempPath])
  else
    (db, [])

/-- `updateDatabasesIfNeeded` (main.go lines 337-383): apply `updateEntry`
to every registered entry, collecting the traces.  The registry map is
modelled as an association list; names are preserved in place. -/
def updateDatabasesIfNeeded (env : RefreshEnv) :
    List (String × DbConfig) → List (String × DbConfig) × List Act
  | [] => ([], [])
  | (n, db) :: rest =>
      let p := updateEntry env db
      let q := updateDatabasesIfNeeded env rest
      ((n, p.1) :: q.1, p.2 ++ q.2)

/-- The download invocations recorded in a trace, as (url, dest) pairs. -/
def downloadsOf (tr : List Act) : List (String × String) :=
  tr.filterMap fun a =>
    match a with
    | Act.download u d => some (u, d)
    | _ => none

/-- Annotate each action with whether the entry's exclusive (write) lock is
held while the action executes; `b` is the held state on entry
(`lockAcquire` itself executes unlocked, `lockRelease` executes locked). -/
def annotateHeld : List Act → Bool → List (Act × Bool)
  | [], _ => []
  | Act.lockAcquire :: rest, _ => (Act.lockAcquire, false) :: annotateHeld rest true
  | Act.lockRelease :: rest, _ => (Act.lockRelease, true) :: annotateHeld rest false
  | a :: rest, b => (a, b) :: annotateHeld rest b

/-- The actions performed strictly inside the exclusive critical section
(lock acquisition/release themselves excluded). -/
def heldActs (tr : List Act) : List Act :=
  (annotateHeld tr false).filterMap fun ab =>
    if ab.2 && !(ab.1 = Act.lockRelease) then some ab.1 else none

/-- Oracles for initialization: whether a path exists on disk
(`os.Stat` / `os.IsNotExist`), outcome of `downloadDatabase`, of
`geoipOpen`, the file modification time reported by `os.Stat`
(`none` = stat error), and the current time. -/
structure InitEnv where
  fileExists : String → Bool
  downloadOK : String → String → Bool
  openResult : String → Option Nat
  modTime : String → Option Nat
  now : Nat

/-- The open-and-timestamp tail of the `initDatabases` loop body
(main.go lines 300-317): open a reader from `localPath` (error aborts),
install it, and if `lastUpdate` is still the zero value set it to the
file's modification time, falling back to `now` on stat error. -/
def openAndStamp (env : InitEnv) (db : DbConfig) : DbConfig × Option String :=
  match env.openResult db.localPath with
  | none => (db, some ("error opening database: " ++ db.localPath))
  | some rid =>
      let db1 : DbConfig := { db with reader := some ⟨rid, false⟩ }
      if db1.lastUpdate = 0 then
        match env.modTime db1.localPath with
        | some t => ({ db1 with lastUpdate := t }, none)
        | none => ({ db1 with lastUpdate := env.now }, none)
      else
        (db1, none)

/-- The body of the `for name, db := range databases` loop of
`initDatabases` (main.go lines 289-318), for one entry.  Returns the
entry state afterwards, the download invocations, and the error if any.
If `localPath` does not exist, download it to `localPath` (failure
returns before any field is mutated) and set `lastUpdate = time.Now()`;
then open and stamp. -/
def initEntry (env : InitEnv) (db : DbConfig) :
    DbConfig × List (String × String) × Option String :=
  if env.fileExists db.localPath then
    let r := openAndStamp env db
    (r.1, [], r.2)
  else if env.downloadOK db.url db.localPath then
    let r := openAndStamp env { db with lastUpdate := env.now }
    (r.1, [(db.url, db.localPath)], r.2)
  else
    (db, [(db.url, db.localPath)], some ("failed to download database: " ++ db.url))

/-- `initDatabases` (main.go lines 288-321): process entries in order,
returning early with the first error.  Entries processed before the error
keep their mutations (the Go map holds pointers); later entries are
untouched. -/
def initDatabases (env : InitEnv) :
    List (String × DbConfig) →
      List (String × DbConfig) × List (String × String) × Option String
  | [] => ([], [], none)
  | (n, db) :: rest =>
      match initEntry env db with
      | (db1, log1, some e) => ((n, db1) :: rest, log1, some e)
      | (db1, log1, none) =>
          let q := initDatabases env rest
          ((n, db1) :: q.1, log1 ++ q.2.1, q.2.2)

/-- Oracles for one `downloadDatabase` call: whether `os.Create`
succeeds, whether `http.Get` succeeds, the HTTP status code, the
response body (bytes), whether `io.Copy` runs to completion, and how
many body bytes were written before a copy error. -/
structure DlEnv where
  createOK : Bool
  getOK : Bool
  status : Nat
  body : List Nat
  copyOK : Bool
  copiedLen : Nat

/-- `downloadDatabase` (main.go lines 386-409) acting on the destination
file's content (`none` = the file does not exist).  `os.Create` runs
first and truncates the destination; only then is the HTTP GET issued,
the status checked, and the body copied.  No error path removes the
created file.  Returns the destination content afterwards and the error
if any. -/
def downloadDatabase (env : DlEnv) (prior : Option (List Nat)) :
    Option (List Nat) × Option String :=
  if env.createOK = false then
    (prior, some "create failed")
  else if env.getOK = false then
    (some [], some "http get failed")
  else if env.status ≠ 200 then
    (some [], some "bad status")
  else if env.copyOK = false then
    (some (env.body.take env.copiedLen), some "copy failed")
  else
    (some env.body, none)

/-!
Interleaving semantics for one entry's `sync.RWMutex` discipline: any
number of lookup goroutines, each running the per-entry fragment of
`getIPInfo` (main.go lines 496-498: `mutex.RLock()`; read `db.reader`
and invoke the lookup method on it; `mutex.RUnlock()`), concurrently
with the refresh goroutine running the swap section of
`updateDatabasesIfNeeded` on its success path (main.go lines 350-378:
`mutex.Lock()`; close the old reader; rename; open the new reader;
write the reader pointer; write the timestamp; `mutex.Unlock()`).
Each line of Go becomes one atomic step; a schedule is an arbitrary
list of thread ids, and a step whose lock guard is not satisfied
blocks (leaves the state unchanged), which is how the mutex serializes
lookups against the swap.
-/

/-- Control point of a lookup goroutine. -/
inductive LookPc where
  | idle | locked | readDone | used | done
deriving DecidableEq, Repr

/-- A lookup goroutine: control point, the reader value it read from
`db.reader` under the read lock, and whether its lookup call succeeded
(`some false` would mean it invoked a closed reader). -/
structure LookTh where
  pc : LookPc
  obs : Option RHandle
  res : Option Bool
deriving DecidableEq, Repr

/-- Control point of the swapper between the statements of the swap
section; the write lock is held from `acquiredLock` through
`wroteTime`. -/
inductive SwapPc where
  | idle | acquiredLock | closedOld | renamed | opened | wrotePtr | wroteTime | done
deriving DecidableEq, Repr

/-- Shared state of one entry plus the control state of every thread. -/
structure SysState where
  reader : RHandle
  lastUpdate : Nat
  swap : SwapPc
  looks : List LookTh
deriving DecidableEq, Repr

/-- Whether the swapper holds the exclusive (write) lock. -/
def writerHeld (p : SwapPc) : Bool :=
  match p with
  | .idle => false
  | .done => false
  | _ => true

/-- Whether a lookup goroutine holds the shared (read) lock. -/
def holdsRead (t : LookTh) : Bool :=
  match t.pc with
  | .locked => true
  | .readDone => true
  | .used => true
  | _ => false

/-- Number of goroutines currently holding the read lock. -/
def readersCount (s : SysState) : Nat :=
  (s.looks.filter holdsRead).length

/-- The reader installed before the swap (open). -/
def oldR : RHandle := ⟨0, false⟩

/-- The freshly opened reader the swap installs (open). -/
def newR : RHandle := ⟨1, false⟩

/-- One step of the refresh goroutine's swap section.  `Lock()` is only
enabled when no goroutine holds the read lock (RWMutex exclusion);
every other step is a straight-line statement of main.go lines
350-378. -/
def swapStep (now : Nat) (s : SysState) : SysState :=
  match s.swap with
  | .idle => if readersCount s = 0 then { s with swap := .acquiredLock } else s
  | .acquiredLock => { s with reader := closeRH s.reader, swap := .closedOld }
  | .closedOld => { s with swap := .renamed }
  | .renamed => { s with swap := .opened }
  | .opened => { s with reader := newR, swap := .wrotePtr }
  | .wrotePtr => { s with lastUpdate := now, swap := .wroteTime }
  | .wroteTime => { s with swap := .done }
  | .done => s

/-- One step of lookup goroutine `i`.  `RLock()` is only enabled while
the writer does not hold the lock (RWMutex exclusion); then the
goroutine reads `db.reader`, invokes the lookup on the handle it read
(succeeding iff that handle is open), and releases. -/
def lookStep (i : Nat) (s : SysState) : SysState :=
  match s.looks.get? i with
  | none => s
  | some t =>
      match t.pc with
      | .idle =>
          if writerHeld s.swap then s
          else { s with looks := s.looks.set i { t with pc := .locked } }
      | .locked =>
          { s with looks := s.looks.set i { t with pc := .readDone, obs := some s.reader } }
      | .readDone =>
          let ok := match t.obs with
            | some r => !r.closed
            | none => false
          { s with looks := s.looks.set i { t with pc := .used, res := some ok } }
      | .used => { s with looks := s.looks.set i { t with pc := .done } }
      | .done => s

/-- Thread identifiers: the refresh goroutine or the i-th lookup. -/
inductive Tid where
  | swapper
  | look (i : Nat)
deriving DecidableEq, Repr

/-- Dispatch one scheduled step. -/
def sysStep (now : Nat) (s : SysState) (t : Tid) : SysState :=
  match t with
  | .swapper => swapStep now s
  | .look i => lookStep i s

/-- Run an arbitrary schedule. -/
def runSched (now : Nat) (s : SysState) (sched : List Tid) : SysState :=
  sched.foldl (sysStep now) s

/-- A lookup goroutine that has not started. -/
def initLook : LookTh := ⟨.idle, none, none⟩

/-- Initial state: the old reader installed and open, `n` lookup
goroutines about to run, the swap about to run. -/
def initSys (n : Nat) (lu : Nat) : SysState :=
  { reader := oldR, lastUpdate := lu, swap := .idle, looks := List.replicate n initLook }

/-- A concrete schedule: lookup 0 runs and completes against the old
reader while the swapper's lock acquisition is blocked; the swapper then
performs the whole swap; lookup 1 runs against the new reader. -/
def schedC1 : List Tid :=
  [Tid.look 0, Tid.swapper, Tid.look 0, Tid.look 0, Tid.look 0,
   Tid.swapper, Tid.swapper, Tid.swapper, Tid.swapper, Tid.swapper,
   Tid.swapper, Tid.swapper,
   Tid.look 1, Tid.look 1, Tid.look 1, Tid.look 1]

/-- The final state of lookup goroutine 1 under `schedC1`. -/
def lookC1 : LookTh := ⟨.done, some newR, some true⟩

/-- The value of `db.reader` as a function of the swapper's control
point, starting from `oldR`. -/
def readerAt : SwapPc → RHandle
  | .idle => oldR
  | .acquiredLock => oldR
  | .closedOld => closeRH oldR
  | .renamed => closeRH oldR
  | .opened => closeRH oldR
  | .wrotePtr => newR
  | .wroteTime => newR
  | .done => newR

/-- A lookup goroutine never observes anything but the wholly-old or
wholly-new reader, and any lookup call it completed succeeded. -/
def goodLook (t : LookTh) : Prop :=
  ((t.pc = .readDone ∨ t.pc = .used ∨ t.pc = .done) →
      (t.obs = some oldR ∨ t.obs = some newR)) ∧
  ((t.pc = .used ∨ t.pc = .done) → t.res = some true)

/-- System invariant: the shared reader tracks the swapper's control
point, the write lock excludes read holders, and every lookup goroutine
is in a good state. -/
def Inv (s : SysState) : Prop :=
  s.reader = readerAt s.swap ∧
  (writerHeld s.swap = true → readersCount s = 0) ∧
  ∀ t ∈ s.looks, goodLook t

/-- Adjacent-state relation for C9: every entry present in both states
has a non-decreasing `lastUpdate`. -/
def lastUpdateMono (s t : List (String × DbConfig)) : Prop :=
  ∀ n db db', s.lookup n = some db → t.lookup n = some db' →
    db.lastUpdate ≤ db'.lastUpdate

/-- The registry states produced by successive refresh cycles. -/
def scanCycles : List RefreshEnv → List (String × DbConfig) → List (List (String × DbConfig))
  | [], _ => []
  | e :: es, s =>
      let s' := (updateDatabasesIfNeeded e s).1
      s' :: scanCycles es s'

/-- The registry states over one process lifetime: the constructed
entries, the state after `initDatabases`, then the state after each
refresh cycle. -/
def lifecycleTrace (ienv : InitEnv) (envs : List RefreshEnv)
    (entries : List (String × DbConfig)) : List (List (String × DbConfig)) :=
  entries :: (initDatabases ienv entries).1 ::
    scanCycles envs (initDatabases ienv entries).1

/-- The operations the source performs inside the exclusive critical
section of a refresh swap. -/
def isSwapSectionAct : Act → Bool
  | Act.closeReader => true
  | Act.renameFile _ _ => true
  | Act.openReader _ => true
  | Act.writeReaderPtr => true
  | Act.writeTimestamp => true
  | _ => false

/-- The operations the spec says the exclusive hold covers: only the
reader-pointer/timestamp update. -/
def isPtrTimestampAct : Act → Bool
  | Act.writeReaderPtr => true
  | Act.writeTimestamp => true
  | _ => false

/-! Concrete inputs used by the witnesses and counterexamples. -/

/-- Scenario for C2: only the rename fails. -/
def envC2 : RefreshEnv :=
  { downloadOK := fun _ _ => true
    renameOK := fun _ _ => false
    openResult := fun _ => some 7
    now := thirtyDays }

/-- A stale entry holding an open reader. -/
def dbC2 : DbConfig :=
  { reader := some ⟨3, false⟩, url := "u", localPath := "p", lastUpdate := 0 }

/-- Scenario for C3: download and rename succeed, the re-open fails. -/
def envC3 : RefreshEnv :=
  { downloadOK := fun _ _ => true
    renameOK := fun _ _ => true
    openResult := fun _ => none
    now := thirtyDays }

/-- A stale entry holding an open reader. -/
def dbC3 : DbConfig :=
  { reader := some ⟨3, false⟩, url := "u", localPath := "p", lastUpdate := 0 }

/-- Scenario for C4: a fully successful refresh of a stale entry. -/
def envC4 : RefreshEnv :=
  { downloadOK := fun _ _ => true
    renameOK := fun _ _ => true
    openResult := fun _ => some 7
    now := thirtyDays }

/-- A stale entry holding an open reader. -/
def dbC4 : DbConfig :=
  { reader := some ⟨3, false⟩, url := "u", localPath := "p", lastUpdate := 0 }

/-- Scenario for C5: every oracle would succeed, but the entry is fresh. -/
def envC5 : RefreshEnv :=
  { downloadOK := fun _ _ => true
    renameOK := fun _ _ => true
    openResult := fun _ => some 1
    now := 0 }

/-- A fresh entry. -/
def dbC5 : DbConfig :=
  { reader := some ⟨2, false⟩, url := "u", localPath := "p", lastUpdate := 0 }

/-- A one-entry registry holding `dbC5`. -/
def dbsC5 : List (String × DbConfig) := [("asn", dbC5)]

/-- Scenario for C6: the clock is exactly thirty days past `lastUpdate`. -/
def envC6 : RefreshEnv :=
  { downloadOK := fun _ _ => true
    renameOK := fun _ _ => true
    openResult := fun _ => some 1
    now := thirtyDays }

/-- A stale entry. -/
def dbC6 : DbConfig :=
  { reader := some ⟨2, false⟩, url := "u", localPath := "p", lastUpdate := 0 }

/-- A one-entry registry holding `dbC6`. -/
def dbsC6 : List (String × DbConfig) := [("city", dbC6)]

/-- Scenario for C7: download fails for url "uA" only. -/
def envC7 : RefreshEnv :=
  { downloadOK := fun u _ => u == "uB"
    renameOK := fun _ _ => true
    openResult := fun _ => some 9
    now := thirtyDays }

/-- Stale entry whose download will fail. -/
def dbA7 : DbConfig :=
  { reader := some ⟨1, false⟩, url := "uA", localPath := "pa", lastUpdate := 0 }

/-- Stale entry whose refresh will fully succeed. -/
def dbB7 : DbConfig :=
  { reader := some ⟨2, false⟩, url := "uB", localPath := "pb", lastUpdate := 0 }

/-- A two-entry registry holding `dbA7` and `dbB7`. -/
def dbsC7 : List (String × DbConfig) := [("a", dbA7), ("b", dbB7)]

/-- Scenario for C8: no file exists and every download fails. -/
def envC8 : InitEnv :=
  { fileExists := fun _ => false
    downloadOK := fun _ _ => false
    openResult := fun _ => some 1
    modTime := fun _ => none
    now := 0 }

/-- A one-entry registry with the constructed (empty) mutable fields. -/
def dbsC8 : List (String × DbConfig) :=
  [("asn", { reader := none, url := "u", localPath := "p", lastUpdate := 0 })]

/-- Initialization scenario for C9: the file exists with mod time 10. -/
def ienvC9 : InitEnv :=
  { fileExists := fun _ => true
    downloadOK := fun _ _ => true
    openResult := fun _ => some 1
    modTime := fun _ => some 10
    now := 100 }

/-- One refresh cycle for C9, past the staleness threshold. -/
def envsC9 : List RefreshEnv :=
  [{ downloadOK := fun _ _ => true
     renameOK := fun _ _ => true
     openResult := fun _ => some 2
     now := thirtyDays + 20 }]

/-- Entries as constructed at process start. -/
def entriesC9 : List (String × DbConfig) :=
  [("country", { reader := none, url := "u", localPath := "p", lastUpdate := 0 })]

/-- C10 scenario: `os.Create` succeeds, the HTTP GET fails. -/
def dlEnvC10 : DlEnv :=
  { createOK := true, getOK := false, status := 0, body := [],
    copyOK := true, copiedLen := 0 }

/-- C10 scenario: the destination file exists at the next startup. -/
def ienvC10 : InitEnv :=
  { fileExists := fun _ => true
    downloadOK := fun _ _ => false
    openResult := fun _ => some 1
    modTime := fun _ => none
    now := 5 }

/-- The entry whose `localPath` the failed download left behind. -/
def dbC10 : DbConfig :=
  { reader := none, url := "u", localPath := "p", lastUpdate := 0 }

theorem readersCount_ne_zero {s : SysState} {t : LookTh}
    (ht : t ∈ s.looks) (hh : holdsRead t = true) : readersCount s ≠ 0 := by
  have hmem : t ∈ s.looks.filter holdsRead := List.mem_filter.mpr ⟨ht, hh⟩
  have hpos : 0 < (s.looks.filter holdsRead).length :=
    List.length_pos.mpr (List.ne_nil_of_mem hmem)
  simp only [readersCount]
  omega

theorem writerFree {s : SysState} (hinv : Inv s) {t : LookTh}
    (ht : t ∈ s.looks) (hh : holdsRead t = true) : writerHeld s.swap = false := by
  cases hw : writerHeld s.swap with
  | false => rfl
  | true => exact absurd (hinv.2.1 hw) (readersCount_ne_zero ht hh)

theorem swapPc_of_not_writer {p : SwapPc} (h : writerHeld p = false) :
    p = .idle ∨ p = .done := by
  cases p <;> simp_all [writerHeld]

theorem reader_ok_of_reading {s : SysState} (hinv : Inv s) {t : LookTh}
    (ht : t ∈ s.looks) (hh : holdsRead t = true) :
    s.reader = oldR ∨ s.reader = newR := by
  rcases swapPc_of_not_writer (writerFree hinv ht hh) with h | h <;>
    rw [hinv.1, h] <;> simp [readerAt]

theorem inv_swapStep {now : Nat} {s : SysState} (hinv : Inv s) :
    Inv (swapStep now s) := by
  obtain ⟨h1, h2, h3⟩ := hinv
  cases hp : s.swap
  case idle =>
    simp only [swapStep, hp]
    split
    next hc => exact ⟨by rw [h1, hp]; rfl, fun _ => hc, h3⟩
    next => exact ⟨h1, h2, h3⟩
  case acquiredLock =>
    simp only [swapStep, hp]
    exact ⟨by rw [h1, hp]; rfl, fun _ => h2 (by rw [hp]; rfl), h3⟩
  case closedOld =>
    simp only [swapStep, hp]
    exact ⟨by rw [h1, hp]; rfl, fun _ => h2 (by rw [hp]; rfl), h3⟩
  case renamed =>
    simp only [swapStep, hp]
    exact ⟨by rw [h1, hp]; rfl, fun _ => h2 (by rw [hp]; rfl), h3⟩
  case opened =>
    simp only [swapStep, hp]
    exact ⟨by rfl, fun _ => h2 (by rw [hp]; rfl), h3⟩
  case wrotePtr =>
    simp only [swapStep, hp]
    exact ⟨by rw [h1, hp]; rfl, fun _ => h2 (by rw [hp]; rfl), h3⟩
  case wroteTime =>
    simp only [swapStep, hp]
    exact ⟨by rw [h1, hp]; rfl, fun _ => h2 (by rw [hp]; rfl), h3⟩
  case done =>
    simp only [swapStep, hp]
    exact ⟨h1, h2, h3⟩

theorem inv_lookStep {i : Nat} {s : SysState} (hinv : Inv s) :
    Inv (lookStep i s) := by
  obtain ⟨h1, h2, h3⟩ := hinv
  rcases hg : s.looks.get? i with _ | t
  · simp only [lookStep, hg]
    exact ⟨h1, h2, h3⟩
  · have htmem : t ∈ s.looks := List.get?_mem hg
    cases hpc : t.pc
    case idle =>
      simp only [lookStep, hg, hpc]
      split
      next => exact ⟨h1, h2, h3⟩
      next hw =>
        refine ⟨h1, fun hq => absurd hq hw, ?_⟩
        intro t'' h''
        rcases List.mem_or_eq_of_mem_set h'' with h | h
        · exact h3 t'' h
        · subst h
          exact ⟨by intro hc; simp at hc, by intro hc; simp at hc⟩
    case locked =>
      have hh : holdsRead t = true := by simp [holdsRead, hpc]
      have hw : writerHeld s.swap = false := writerFree ⟨h1, h2, h3⟩ htmem hh
      have hr : s.reader = oldR ∨ s.reader = newR :=
        reader_ok_of_reading ⟨h1, h2, h3⟩ htmem hh
      simp only [lookStep, hg, hpc]
      refine ⟨h1, fun hq => absurd hq (by simp [hw]), ?_⟩
      intro t'' h''
      rcases List.mem_or_eq_of_mem_set h'' with h | h
      · exact h3 t'' h
      · subst h
        refine ⟨fun _ => ?_, by intro hc; simp at hc⟩
        rcases hr with h | h <;> simp [h]
    case readDone =>
      have hh : holdsRead t = true := by simp [holdsRead, hpc]
      have hw : writerHeld s.swap = false := writerFree ⟨h1, h2, h3⟩ htmem hh
      have hobs : t.obs = some oldR ∨ t.obs = some newR :=
        (h3 t htmem).1 (Or.inl hpc)
      simp only [lookStep, hg, hpc]
      refine ⟨h1, fun hq => absurd hq (by simp [hw]), ?_⟩
      intro t'' h''
      rcases List.mem_or_eq_of_mem_set h'' with h | h
      · exact h3 t'' h
      · subst h
        refine ⟨fun _ => by simpa using hobs, fun _ => ?_⟩
        rcases hobs with h | h <;> simp [h, oldR, newR]
    case used =>
      have hh : holdsRead t = true := by simp [holdsRead, hpc]
      have hw : writerHeld s.swap = false := writerFree ⟨h1, h2, h3⟩ htmem hh
      simp only [lookStep, hg, hpc]
      refine ⟨h1, fun hq => absurd hq (by simp [hw]), ?_⟩
      intro t'' h''
      rcases List.mem_or_eq_of_mem_set h'' with h | h
      · exact h3 t'' h
      · subst h
        exact ⟨fun _ => (h3 t htmem).1 (Or.inr (Or.inl hpc)),
               fun _ => (h3 t htmem).2 (Or.inl hpc)⟩
    case done =>
      simp only [lookStep, hg, hpc]
      exact ⟨h1, h2, h3⟩

theorem inv_runSched {now : Nat} {sched : List Tid} {s : SysState} (hinv : Inv s) :
    Inv (runSched now s sched) := by
  induction sched generalizing s with
  | nil => exact hinv
  | cons a rest ih =>
    have hstep : Inv (sysStep now s a) := by
      cases a with
      | swapper => exact inv_swapStep hinv
      | look i => exact inv_lookStep hinv
    exact ih hstep

theorem inv_initSys (n lu : Nat) : Inv (initSys n lu) := by
  refine ⟨rfl, ?_, ?_⟩
  · intro h
    simp [initSys, writerHeld] at h
  intro t ht
  have he : t = initLook := List.eq_of_mem_replicate ht
  subst he
  exact ⟨by simp [initLook], by simp [initLook]⟩

/-- C1: atomic swap under concurrency.  For any number of lookup
goroutines running the `getIPInfo` read-locked lookup fragment
concurrently with one refresh swap (the success path of
`updateDatabasesIfNeeded`), under any interleaving permitted by the
`sync.RWMutex`, every lookup that has read the reader pointer observed
either wholly the old reader or wholly the new reader — never the
half-replaced (closed-but-not-yet-swapped) intermediate — and every
lookup call that ran completed successfully, so no lookup errors due to
the swap itself. -/
theorem atomic_swap_under_concurrency (n lu now : Nat) (sched : List Tid) (t : LookTh)
    (ht : t ∈ (runSched now (initSys n lu) sched).looks) :
    ((t.pc = .readDone ∨ t.pc = .used ∨ t.pc = .done) →
        (t.obs = some oldR ∨ t.obs = some newR)) ∧
    ((t.pc = .used ∨ t.pc = .done) → t.res = some true) :=
  (inv_runSched (inv_initSys n lu)).2.2 t ht

theorem atomic_swap_under_concurrency_witness :
    lookC1 ∈ (runSched 5 (initSys 2 0) schedC1).looks ∧
    (((lookC1.pc = .readDone ∨ lookC1.pc = .used ∨ lookC1.pc = .done) →
        (lookC1.obs = some oldR ∨ lookC1.obs = some newR)) ∧
     ((lookC1.pc = .used ∨ lookC1.pc = .done) → lookC1.res = some true)) :=
  ⟨by decide, atomic_swap_under_concurrency 2 0 5 schedC1 lookC1 (by decide)⟩

theorem lookup_cons_self {n m : String} {v : DbConfig} {l : List (String × DbConfig)}
    (h : (n == m) = true) : List.lookup n ((m, v) :: l) = some v := by
  simp [List.lookup, h]

theorem lookup_cons_ne {n m : String} {v : DbConfig} {l : List (String × DbConfig)}
    (h : ¬ (n == m) = true) : List.lookup n ((m, v) :: l) = List.lookup n l := by
  rw [Bool.not_eq_true] at h
  simp [List.lookup, h]

theorem lookup_updateDatabases (env : RefreshEnv) (dbs : List (String × DbConfig))
    (n : String) :
    (updateDatabasesIfNeeded env dbs).1.lookup n =
      (dbs.lookup n).map fun db => (updateEntry env db).1 := by
  induction dbs with
  | nil => rfl
  | cons hd tl ih =>
    rcases hd with ⟨m, db⟩
    by_cases hnm : (n == m) = true
    · simp only [updateDatabasesIfNeeded]
      rw [lookup_cons_self hnm, lookup_cons_self hnm]
      rfl
    · simp only [updateDatabasesIfNeeded]
      rw [lookup_cons_ne hnm, lookup_cons_ne hnm, ih]

theorem lookup_mem {l : List (String × DbConfig)} {n : String} {v : DbConfig}
    (h : l.lookup n = some v) : (n, v) ∈ l := by
  induction l with
  | nil => simp [List.lookup] at h
  | cons hd tl ih =>
    rcases hd with ⟨m, w⟩
    by_cases hnm : (n == m) = true
    · have hn : n = m := eq_of_beq hnm
      rw [lookup_cons_self hnm] at h
      have hv : w = v := Option.some.inj h
      subst hn
      subst hv
      exact List.mem_cons_self _ _
    · rw [lookup_cons_ne hnm] at h
      exact List.mem_cons_of_mem _ (ih h)

theorem mem_cycle_log (env : RefreshEnv) {dbs : List (String × DbConfig)}
    {n : String} {db : DbConfig} (hlook : dbs.lookup n = some db)
    {a : Act} (ha : a ∈ (updateEntry env db).2) :
    a ∈ (updateDatabasesIfNeeded env dbs).2 := by
  induction dbs with
  | nil => simp [List.lookup] at hlook
  | cons hd tl ih =>
    rcases hd with ⟨m, db0⟩
    by_cases hnm : (n == m) = true
    · rw [lookup_cons_self hnm] at hlook
      have hdb : db0 = db := Option.some.inj hlook
      subst hdb
      simp only [updateDatabasesIfNeeded, List.mem_append]
      exact Or.inl ha
    · rw [lookup_cons_ne hnm] at hlook
      simp only [updateDatabasesIfNeeded, List.mem_append]
      exact Or.inr (ih hlook)

/-- C2: rename-failure fallback.  If for a stale entry the download to
the temporary path succeeds but the rename onto `localPath` fails — the
rename being the only injected fault, so the best-effort re-open of the
unchanged `localPath` succeeds — then after the cycle the entry holds a
usable reader (a lookup immediately afterwards succeeds) and its
`lastUpdate` is unchanged; `updateEntry` returns normally (no crash). -/
theorem rename_failure_fallback (env : RefreshEnv) (db : DbConfig) (rid : Nat)
    (hstale : env.now - db.lastUpdate ≥ thirtyDays)
    (hdl : env.downloadOK db.url (db.localPath ++ ".new") = true)
    (hrn : env.renameOK (db.localPath ++ ".new") db.localPath = false)
    (hop : env.openResult db.localPath = some rid) :
    lookupOK (updateEntry env db).1 = true ∧
    (updateEntry env db).1.lastUpdate = db.lastUpdate := by
  simp [updateEntry, hstale, hdl, hrn, hop, lookupOK]

theorem rename_failure_fallback_witness :
    (envC2.now - dbC2.lastUpdate ≥ thirtyDays ∧
     envC2.downloadOK dbC2.url (dbC2.localPath ++ ".new") = true ∧
     envC2.renameOK (dbC2.localPath ++ ".new") dbC2.localPath = false ∧
     envC2.openResult dbC2.localPath = some 7) ∧
    (lookupOK (updateEntry envC2 dbC2).1 = true ∧
     (updateEntry envC2 dbC2).1.lastUpdate = dbC2.lastUpdate) :=
  ⟨⟨by decide, rfl, rfl, rfl⟩,
   rename_failure_fallback envC2 dbC2 7 (by decide) rfl rfl rfl⟩

/-- C3 counterexample.  Concrete open-failure-after-rename scenario: a
stale entry with an open reader, download and rename succeed, opening
the updated `localPath` fails.  The claim says the previously installed
reader remains functional, but the source closed it before the rename
(main.go lines 350-354), so a lookup against the entry now fails: the
claim's conjunction (reader pointer and `lastUpdate` untouched AND a
still-functional reader) is false here. -/
theorem open_failure_counterexample :
    (envC3.now - dbC3.lastUpdate ≥ thirtyDays ∧
     envC3.downloadOK dbC3.url (dbC3.localPath ++ ".new") = true ∧
     envC3.renameOK (dbC3.localPath ++ ".new") dbC3.localPath = true ∧
     envC3.openResult dbC3.localPath = none ∧
     lookupOK dbC3 = true) ∧
    ¬ ((updateEntry envC3 dbC3).1.reader.map RHandle.id =
         dbC3.reader.map RHandle.id ∧
       (updateEntry envC3 dbC3).1.lastUpdate = dbC3.lastUpdate ∧
       lookupOK (updateEntry envC3 dbC3).1 = true) := by
  refine ⟨⟨by decide, rfl, rfl, rfl, rfl⟩, ?_⟩
  intro h
  exact absurd h.2.2 (by decide)

/-- C3 amended: open-failure after rename.  If download and rename
succeed but opening the updated `localPath` fails, the entry's reader
pointer and `lastUpdate` are indeed left untouched, but the reader the
pointer designates was closed before the rename, so it is no longer
functional: a lookup against the entry fails until a later cycle
succeeds. -/
theorem open_failure_amended (env : RefreshEnv) (db : DbConfig)
    (hstale : env.now - db.lastUpdate ≥ thirtyDays)
    (hdl : env.downloadOK db.url (db.localPath ++ ".new") = true)
    (hrn : env.renameOK (db.localPath ++ ".new") db.localPath = true)
    (hop : env.openResult db.localPath = none) :
    (updateEntry env db).1.lastUpdate = db.lastUpdate ∧
    (updateEntry env db).1.reader = db.reader.map closeRH ∧
    (updateEntry env db).1.reader.map RHandle.id = db.reader.map RHandle.id ∧
    lookupOK (updateEntry env db).1 = false := by
  rcases hr : db.reader with _ | r
  · simp [updateEntry, hstale, hdl, hrn, hop, lookupOK, hr]
  · simp [updateEntry, hstale, hdl, hrn, hop, lookupOK, hr, closeRH]

theorem open_failure_amended_witness :
    (envC3.now - dbC3.lastUpdate ≥ thirtyDays ∧
     envC3.downloadOK dbC3.url (dbC3.localPath ++ ".new") = true ∧
     envC3.renameOK (dbC3.localPath ++ ".new") dbC3.localPath = true ∧
     envC3.openResult dbC3.localPath = none) ∧
    ((updateEntry envC3 dbC3).1.lastUpdate = dbC3.lastUpdate ∧
     (updateEntry envC3 dbC3).1.reader = dbC3.reader.map closeRH ∧
     (updateEntry envC3 dbC3).1.reader.map RHandle.id =
       dbC3.reader.map RHandle.id ∧
     lookupOK (updateEntry envC3 dbC3).1 = false) :=
  ⟨⟨by decide, rfl, rfl, rfl⟩,
   open_failure_amended envC3 dbC3 (by decide) rfl rfl rfl⟩

/-- C4 counterexample.  Concrete fully-successful refresh of a stale
entry.  The first half of the claim (the exclusive lock is never held
during the download) is true, but the second half is not: the actions
performed while the exclusive lock is held are not only the
reader-pointer/timestamp update — the rename (file I/O) is among them,
so the claimed conjunction is false at this input. -/
theorem exclusive_lock_scope_counterexample :
    (envC4.now - dbC4.lastUpdate ≥ thirtyDays ∧
     envC4.downloadOK dbC4.url (dbC4.localPath ++ ".new") = true ∧
     envC4.renameOK (dbC4.localPath ++ ".new") dbC4.localPath = true ∧
     envC4.openResult dbC4.localPath = some 7) ∧
    ¬ ((∀ u d, Act.download u d ∉ heldActs (updateEntry envC4 dbC4).2) ∧
       ∀ a ∈ heldActs (updateEntry envC4 dbC4).2, isPtrTimestampAct a = true) := by
  refine ⟨⟨by decide, rfl, rfl, rfl⟩, ?_⟩
  intro h
  have hmem : Act.renameFile (dbC4.localPath ++ ".new") dbC4.localPath ∈
      heldActs (updateEntry envC4 dbC4).2 := by decide
  exact absurd (h.2 _ hmem) (by decide)

/-- C4 amended: exclusive-lock scope.  For every entry and refresh
cycle, the exclusive lock is never held while the download runs (the
lock is taken only after the download returns); however the exclusive
hold covers not just the reader-pointer/timestamp update but also the
close of the old reader, the rename and the open of the new reader —
the swap section's file I/O. -/
theorem exclusive_lock_scope_amended (env : RefreshEnv) (db : DbConfig) :
    (∀ u d, Act.download u d ∉ heldActs (updateEntry env db).2) ∧
    ∀ a ∈ heldActs (updateEntry env db).2, isSwapSectionAct a = true := by
  by_cases hstale : env.now - db.lastUpdate ≥ thirtyDays
  · by_cases hdl : env.downloadOK db.url (db.localPath ++ ".new") = true
    · by_cases hrn : env.renameOK (db.localPath ++ ".new") db.localPath = true
      · rcases hop : env.openResult db.localPath with _ | rid <;>
          cases hso : db.reader.isSome <;>
            simp [updateEntry, hstale, hdl, hrn, hop, hso, heldActs,
              annotateHeld, isSwapSectionAct]
      · rcases hop : env.openResult db.localPath with _ | rid <;>
          cases hso : db.reader.isSome <;>
            simp [updateEntry, hstale, hdl, hrn, hop, hso, heldActs,
              annotateHeld, isSwapSectionAct]
    · simp [updateEntry, hstale, hdl, heldActs, annotateHeld]
  · simp [updateEntry, hstale, heldActs, annotateHeld]

theorem exclusive_lock_scope_amended_witness :
    Act.renameFile (dbC4.localPath ++ ".new") dbC4.localPath ∈
      heldActs (updateEntry envC4 dbC4).2 ∧
    isSwapSectionAct (Act.renameFile (dbC4.localPath ++ ".new") dbC4.localPath) = true :=
  ⟨by decide, (exclusive_lock_scope_amended envC4 dbC4).2 _ (by decide)⟩

/-- C5: idempotent refresh-skip.  An entry whose `lastUpdate` is less
than thirty days old at the time of the check is left completely
unchanged by the refresh cycle, and the download primitive is invoked
zero times for it. -/
theorem idempotent_refresh_skip (env : RefreshEnv) (dbs : List (String × DbConfig))
    (n : String) (db : DbConfig)
    (hlook : dbs.lookup n = some db)
    (hfresh : env.now - db.lastUpdate < thirtyDays) :
    (updateDatabasesIfNeeded env dbs).1.lookup n = some db ∧
    (updateEntry env db).1 = db ∧
    downloadsOf (updateEntry env db).2 = [] := by
  have hno : ¬ (env.now - db.lastUpdate ≥ thirtyDays) := by omega
  refine ⟨?_, ?_, ?_⟩
  · rw [lookup_updateDatabases, hlook]
    simp [updateEntry, hno]
  · simp [updateEntry, hno]
  · simp [updateEntry, hno, downloadsOf]

theorem idempotent_refresh_skip_witness :
    (dbsC5.lookup "asn" = some dbC5 ∧
     envC5.now - dbC5.lastUpdate < thirtyDays) ∧
    ((updateDatabasesIfNeeded envC5 dbsC5).1.lookup "asn" = some dbC5 ∧
     (updateEntry envC5 dbC5).1 = dbC5 ∧
     downloadsOf (updateEntry envC5 dbC5).2 = []) :=
  ⟨⟨by decide, by decide⟩,
   idempotent_refresh_skip envC5 dbsC5 "asn" dbC5 (by decide) (by decide)⟩

/-- C6: staleness trigger.  An entry whose `lastUpdate` is at least
thirty days old at the time of the check causes exactly one download
invocation in the cycle's handling of that entry, with the sibling
temporary path `localPath + ".new"` as destination; that download is
among the cycle's recorded actions. -/
theorem staleness_trigger (env : RefreshEnv) (dbs : List (String × DbConfig))
    (n : String) (db : DbConfig)
    (hlook : dbs.lookup n = some db)
    (hstale : env.now - db.lastUpdate ≥ thirtyDays) :
    downloadsOf (updateEntry env db).2 = [(db.url, db.localPath ++ ".new")] ∧
    Act.download db.url (db.localPath ++ ".new") ∈ (updateDatabasesIfNeeded env dbs).2 := by
  have hmem : Act.download db.url (db.localPath ++ ".new") ∈ (updateEntry env db).2 := by
    by_cases hdl : env.downloadOK db.url (db.localPath ++ ".new") = true
    · by_cases hrn : env.renameOK (db.localPath ++ ".new") db.localPath = true
      · rcases hop : env.openResult db.localPath with _ | rid <;>
          simp [updateEntry, hstale, hdl, hrn, hop]
      · rcases hop : env.openResult db.localPath with _ | rid <;>
          simp [updateEntry, hstale, hdl, hrn, hop]
    · simp [updateEntry, hstale, hdl]
  refine ⟨?_, mem_cycle_log env hlook hmem⟩
  by_cases hdl : env.downloadOK db.url (db.localPath ++ ".new") = true
  · by_cases hrn : env.renameOK (db.localPath ++ ".new") db.localPath = true
    · rcases hop : env.openResult db.localPath with _ | rid <;>
        cases hso : db.reader.isSome <;>
          simp [updateEntry, hstale, hdl, hrn, hop, hso, downloadsOf]
    · rcases hop : env.openResult db.localPath with _ | rid <;>
        cases hso : db.reader.isSome <;>
          simp [updateEntry, hstale, hdl, hrn, hop, hso, downloadsOf]
  · simp [updateEntry, hstale, hdl, downloadsOf]

theorem staleness_trigger_witness :
    (dbsC6.lookup "city" = some dbC6 ∧
     envC6.now - dbC6.lastUpdate ≥ thirtyDays) ∧
    (downloadsOf (updateEntry envC6 dbC6).2 = [(dbC6.url, dbC6.localPath ++ ".new")] ∧
     Act.download dbC6.url (dbC6.localPath ++ ".new") ∈
       (updateDatabasesIfNeeded envC6 dbsC6).2) :=
  ⟨⟨by decide, by decide⟩,
   staleness_trigger envC6 dbsC6 "city" dbC6 (by decide) (by decide)⟩

/-- C7: download failure isolation.  If in one refresh cycle the
download fails for stale entry A while stale entry B's download,
rename and open succeed, then A is left completely untouched (reader
and `lastUpdate` included), B's refresh is still attempted — its
download invocation appears in the cycle's actions — and B ends the
cycle with `lastUpdate = now` and a usable reader. -/
theorem download_failure_isolation (env : RefreshEnv) (dbs : List (String × DbConfig))
    (nA nB : String) (A B : DbConfig) (rid : Nat)
    (hA : dbs.lookup nA = some A) (hB : dbs.lookup nB = some B) (_hne : nA ≠ nB)
    (hAstale : env.now - A.lastUpdate ≥ thirtyDays)
    (hAdl : env.downloadOK A.url (A.localPath ++ ".new") = false)
    (hBstale : env.now - B.lastUpdate ≥ thirtyDays)
    (hBdl : env.downloadOK B.url (B.localPath ++ ".new") = true)
    (hBrn : env.renameOK (B.localPath ++ ".new") B.localPath = true)
    (hBop : env.openResult B.localPath = some rid) :
    (updateDatabasesIfNeeded env dbs).1.lookup nA = some A ∧
    ((updateDatabasesIfNeeded env dbs).1.lookup nB = some (updateEntry env B).1 ∧
     (updateEntry env B).1.lastUpdate = env.now ∧
     lookupOK (updateEntry env B).1 = true) ∧
    Act.download B.url (B.localPath ++ ".new") ∈ (updateDatabasesIfNeeded env dbs).2 := by
  refine ⟨?_, ⟨?_, ?_, ?_⟩, ?_⟩
  · rw [lookup_updateDatabases, hA]
    simp [updateEntry, hAstale, hAdl]
  · rw [lookup_updateDatabases, hB]
    rfl
  · simp [updateEntry, hBstale, hBdl, hBrn, hBop]
  · simp [updateEntry, hBstale, hBdl, hBrn, hBop, lookupOK]
  · exact mem_cycle_log env hB (by simp [updateEntry, hBstale, hBdl, hBrn, hBop])

theorem download_failure_isolation_witness :
    (dbsC7.lookup "a" = some dbA7 ∧ dbsC7.lookup "b" = some dbB7 ∧
     "a" ≠ "b" ∧
     envC7.now - dbA7.lastUpdate ≥ thirtyDays ∧
     envC7.downloadOK dbA7.url (dbA7.localPath ++ ".new") = false ∧
     envC7.now - dbB7.lastUpdate ≥ thirtyDays ∧
     envC7.downloadOK dbB7.url (dbB7.localPath ++ ".new") = true ∧
     envC7.renameOK (dbB7.localPath ++ ".new") dbB7.localPath = true ∧
     envC7.openResult dbB7.localPath = some 9) ∧
    ((updateDatabasesIfNeeded envC7 dbsC7).1.lookup "a" = some dbA7 ∧
     ((updateDatabasesIfNeeded envC7 dbsC7).1.lookup "b" = some (updateEntry envC7 dbB7).1 ∧
      (updateEntry envC7 dbB7).1.lastUpdate = envC7.now ∧
      lookupOK (updateEntry envC7 dbB7).1 = true) ∧
     Act.download dbB7.url (dbB7.localPath ++ ".new") ∈
       (updateDatabasesIfNeeded envC7 dbsC7).2) :=
  ⟨⟨by decide, by decide, by decide, by decide, by decide,
    by decide, by decide, by decide, by decide⟩,
   download_failure_isolation envC7 dbsC7 "a" "b" dbA7 dbB7 9
     (by decide) (by decide) (by decide) (by decide) (by decide)
     (by decide) (by decide) (by decide) (by decide)⟩

/-- C8: cold-start fatality.  If no entry's `localPath` exists and
every download fails, then `initDatabases` on a non-empty registry of
freshly constructed entries (all readers nil) returns an error, and no
entry in the resulting registry holds a non-nil reader. -/
theorem cold_start_fatality (env : InitEnv) (dbs : List (String × DbConfig))
    (hne : dbs ≠ [])
    (hex : ∀ p, env.fileExists p = false)
    (hdl : ∀ u d, env.downloadOK u d = false)
    (hrd : ∀ e ∈ dbs, e.2.reader = none) :
    (initDatabases env dbs).2.2.isSome = true ∧
    ∀ e ∈ (initDatabases env dbs).1, e.2.reader = none := by
  rcases dbs with _ | ⟨⟨n, db⟩, rest⟩
  · exact absurd rfl hne
  · have hinit : initEntry env db =
        (db, [(db.url, db.localPath)],
         some ("failed to download database: " ++ db.url)) := by
      simp [initEntry, hex, hdl]
    have hres : initDatabases env ((n, db) :: rest) =
        ((n, db) :: rest, [(db.url, db.localPath)],
         some ("failed to download database: " ++ db.url)) := by
      simp [initDatabases, hinit]
    rw [hres]
    exact ⟨rfl, hrd⟩

theorem cold_start_fatality_witness :
    (dbsC8 ≠ [] ∧
     (∀ p, envC8.fileExists p = false) ∧
     (∀ u d, envC8.downloadOK u d = false) ∧
     (∀ e ∈ dbsC8, e.2.reader = none)) ∧
    ((initDatabases envC8 dbsC8).2.2.isSome = true ∧
     ∀ e ∈ (initDatabases envC8 dbsC8).1, e.2.reader = none) :=
  ⟨⟨by decide, fun _ => rfl, fun _ _ => rfl, by decide⟩,
   cold_start_fatality envC8 dbsC8 (by decide) (fun _ => rfl)
     (fun _ _ => rfl) (by decide)⟩

theorem updateEntry_lastUpdate_mono (env : RefreshEnv) (db : DbConfig) :
    db.lastUpdate ≤ (updateEntry env db).1.lastUpdate := by
  by_cases hstale : env.now - db.lastUpdate ≥ thirtyDays
  · have hle : db.lastUpdate ≤ env.now := by
      simp only [ge_iff_le, thirtyDays] at hstale
      omega
    by_cases hdl : env.downloadOK db.url (db.localPath ++ ".new") = true
    · by_cases hrn : env.renameOK (db.localPath ++ ".new") db.localPath = true
      · rcases hop : env.openResult db.localPath with _ | rid <;>
          simp [updateEntry, hstale, hdl, hrn, hop, hle]
      · rcases hop : env.openResult db.localPath with _ | rid <;>
          simp [updateEntry, hstale, hdl, hrn, hop]
    · simp [updateEntry, hstale, hdl]
  · simp [updateEntry, hstale]

theorem cycle_lastUpdate_mono (env : RefreshEnv) (dbs : List (String × DbConfig)) :
    lastUpdateMono dbs (updateDatabasesIfNeeded env dbs).1 := by
  intro n db db' h h'
  rw [lookup_updateDatabases, h] at h'
  have he : (updateEntry env db).1 = db' := Option.some.inj h'
  rw [← he]
  exact updateEntry_lastUpdate_mono env db

theorem chain_scanCycles (envs : List RefreshEnv) (s : List (String × DbConfig)) :
    List.Chain' lastUpdateMono (s :: scanCycles envs s) := by
  induction envs generalizing s with
  | nil => simp [scanCycles]
  | cons e es ih =>
    simp only [scanCycles]
    exact List.Chain'.cons (cycle_lastUpdate_mono e s) (ih _)

/-- C9: monotonic `lastRefreshed`.  Over one process lifetime —
entries constructed with the zero timestamp, then `initDatabases`,
then any number of refresh cycles — every entry's `lastUpdate` is
non-decreasing between every pair of adjacent registry states. -/
theorem lastRefreshed_monotone (ienv : InitEnv) (envs : List RefreshEnv)
    (entries : List (String × DbConfig))
    (h0 : ∀ e ∈ entries, e.2.lastUpdate = 0) :
    List.Chain' lastUpdateMono (lifecycleTrace ienv envs entries) := by
  have hfirst : lastUpdateMono entries (initDatabases ienv entries).1 := by
    intro n db db' h h'
    have hz : db.lastUpdate = 0 := h0 (n, db) (lookup_mem h)
    simp [hz]
  simp only [lifecycleTrace]
  exact List.Chain'.cons hfirst (chain_scanCycles envs _)

theorem lastRefreshed_monotone_witness :
    (∀ e ∈ entriesC9, e.2.lastUpdate = 0) ∧
    List.Chain' lastUpdateMono (lifecycleTrace ienvC9 envsC9 entriesC9) :=
  ⟨by decide, lastRefreshed_monotone ienvC9 envsC9 entriesC9 (by decide)⟩

/-- C10: the download primitive creates/truncates the destination file
before issuing the HTTP GET or checking the status, so whenever it
returns an error after a successful create (network error, non-200
status, copy error), a — possibly empty or partial — file remains at
the destination and is not removed; and a path that exists suppresses
the cold-start pre-existence download check, so a failed cold-start
download leaves a `localPath` whose presence prevents re-downloading. -/
theorem download_creates_file_before_fetch :
    (∀ (env : DlEnv) (prior : Option (List Nat)),
       env.createOK = true →
       (downloadDatabase env prior).2.isSome = true →
       (downloadDatabase env prior).1.isSome = true) ∧
    (∀ (env : InitEnv) (db : DbConfig),
       env.fileExists db.localPath = true →
       (initEntry env db).2.1 = []) := by
  constructor
  · intro env prior hc herr
    by_cases hg : env.getOK = true
    · by_cases hst : env.status = 200
      · by_cases hcp : env.copyOK = true
        · simp [downloadDatabase, hc, hg, hst, hcp] at herr
        · simp [downloadDatabase, hc, hg, hst, hcp]
      · simp [downloadDatabase, hc, hg, hst]
    · simp [downloadDatabase, hc, hg]
  · intro env db hex
    simp [initEntry, hex]

theorem download_creates_file_before_fetch_witness :
    (dlEnvC10.createOK = true ∧
     (downloadDatabase dlEnvC10 none).2.isSome = true ∧
     (downloadDatabase dlEnvC10 none).1.isSome = true) ∧
    (ienvC10.fileExists dbC10.localPath = true ∧
     (initEntry ienvC10 dbC10).2.1 = []) :=
  ⟨⟨rfl, by decide,
    download_creates_file_before_fetch.1 dlEnvC10 none rfl (by decide)⟩,
   ⟨rfl, download_creates_file_before_fetch.2 ienvC10 dbC10 rfl⟩⟩

end GeoipApi
